import Mathlib

set_option autoImplicit false

/-!
Shallow embedding of the versioned snapshot sync engine of the
cgm-dme-assistant repository.

The embedded code lives in
  backend/services/database.py  (snapshot store and history ledger)
  backend/routers/sync.py       (sync orchestrator, safety gate, deploy)

Modelling conventions:
* Python dicts keyed by strings become association lists with Python dict
  semantics (first-occurrence key order, last value wins).
* The relational store is a `DB` value: the `vector_snapshots` table as a
  list of `Snapshot` rows in insertion order, the `sync_history` table as a
  list of `SyncRun` rows in insertion order.  SQL `UPDATE`s become maps over
  those lists; a `fetchrow` with no `ORDER BY` returns the first matching
  row in insertion order.
* The opaque library hash functions are parameters: `sha256` stands for
  `hashlib.sha256(...).hexdigest()` composed with `json.dumps`, `pyHash`
  for the Python builtin `hash` on strings.  The code only ever compares
  their outputs, so every theorem is proved for all such functions.
* Wall-clock time (`NOW()`) is a `Nat` parameter threaded into the
  operations that stamp it.
* External collaborators (Pinecone upserts, embeddings, Slack) perform no
  database writes; deployment is recorded as the list of
  (namespace, chunk) upserts the code would issue, so that theorems can
  speak about what was (or was not) deployed.  Python float arithmetic in
  the safety-gate percentage is modelled by exact rationals.
-/

/-- A knowledge chunk: `id`, `text`, and its metadata mapping (only string
values are relevant to the embedded code paths). -/
structure Chunk where
  id : String
  text : String
  metadata : List (String × String)
deriving Repr, DecidableEq

/-- A row of the `vector_snapshots` table. -/
structure Snapshot where
  snapshot_id : String
  chunk_count : Nat
  content_hash : String
  chunks : List Chunk
  snapMeta : List (String × String)
  is_active : Bool
  deployed_at : Option Nat
deriving Repr, DecidableEq

/-- A row of the `sync_history` table. -/
structure SyncRun where
  runId : Nat
  status : String
  snapshot_id : Option String
  chunks_added : Nat
  chunks_updated : Nat
  chunks_removed : Nat
  error_message : Option String
  triggered_by : String
deriving Repr, DecidableEq

/-- The relational store: both tables, rows in insertion order. -/
structure DB where
  snapshots : List Snapshot
  history : List SyncRun
deriving Repr, DecidableEq

/-- Python dict lookup with default, as in metadata.get(key, default),
on a dict modelled as an association list. -/
def pyGet (m : List (String × String)) (key dflt : String) : String :=
  match m.find? (fun p => p.1 == key) with
  | some p => p.2
  | none => dflt

/-- One step of Python dict construction: `d[c.id] = c` (last value wins,
key order is first-occurrence). -/
def dictInsert (m : List (String × Chunk)) (c : Chunk) : List (String × Chunk) :=
  if m.any (fun p => p.1 == c.id) then
    m.map (fun p => if p.1 == c.id then (p.1, c) else p)
  else
    m ++ [(c.id, c)]

/-- Python dict comprehension keying chunks by id, as built in the diff
loop of save_snapshot. -/
def toDict (cs : List Chunk) : List (String × Chunk) :=
  cs.foldl dictInsert []

/-- Lookup in a chunk dict (`old_chunks[chunk_id]` / `chunk_id in old_chunks`). -/
def dictFind (m : List (String × Chunk)) (k : String) : Option Chunk :=
  (m.find? (fun p => p.1 == k)).map Prod.snd

/-- Canonical serialization of a chunk, modelling its JSON encoding inside
`json.dumps(sorted_chunks, sort_keys=True)`. -/
def chunkRepr (c : Chunk) : String :=
  "id=" ++ c.id ++ ";text=" ++ c.text ++ ";meta=" ++
    String.intercalate "," (c.metadata.map (fun p => p.1 ++ ":" ++ p.2))

/-- Model of json.dumps over a sorted chunk list, as a canonical string. -/
def jsonOfChunks (cs : List Chunk) : String :=
  String.intercalate "|" (cs.map chunkRepr)

/-- Lexicographic strict order on character lists, by code point. -/
def charListLt : List Char → List Char → Bool
  | _, [] => false
  | [], _ :: _ => true
  | a :: as, b :: bs =>
    if a.toNat < b.toNat then true
    else if b.toNat < a.toNat then false
    else charListLt as bs

/-- Strict lexicographic order on strings, as Python compares str keys. -/
def idLt (a b : String) : Bool := charListLt a.toList b.toList

/-- Stable insertion of a chunk into a list sorted by id; part of the
model of the stable Python sorted(chunks, key=id). -/
def insertById (c : Chunk) : List Chunk → List Chunk
  | [] => [c]
  | x :: xs => if idLt c.id x.id then c :: x :: xs else x :: insertById c xs

/-- Model of sorted(chunks, key=id): a stable sort by chunk id. -/
def sortById (l : List Chunk) : List Chunk := l.foldr insertById []

/-- Embeds compute_content_hash (database.py:116-121): sort chunks by id,
dump to JSON, SHA-256.  Here sha256 is the opaque digest parameter. -/
def compute_content_hash (sha256 : String → String) (chunks : List Chunk) : String :=
  sha256 (jsonOfChunks (sortById chunks))

/-- The change counts computed by `save_snapshot`. -/
structure Changes where
  added : Nat
  updated : Nat
  removed : Nat
deriving Repr, DecidableEq

/-- The diff loop of `save_snapshot` (database.py:162-177): build id-keyed
dicts of the old (active) and new chunks, count `added` (new id absent from
old), `updated` (id in both, `hash(text)` differs), `removed` (old id absent
from new).  Here `pyHash` is the Python builtin `hash` on strings. -/
def calcChanges (pyHash : String → Int) (oldChunks newChunks : List Chunk) : Changes :=
  let old := toDict oldChunks
  let new := toDict newChunks
  let added := (new.filter (fun p => (dictFind old p.1).isNone)).length
  let updated := (new.filter (fun p =>
      match dictFind old p.1 with
      | some oc => decide (pyHash p.2.text ≠ pyHash oc.text)
      | none => false)).length
  let removed := (old.filter (fun p => (dictFind new p.1).isNone)).length
  ⟨added, updated, removed⟩

/-- Result dict of `save_snapshot`; `changes` is present only on the
`created` path, as in the source. -/
structure SaveResult where
  snapshot_id : String
  status : String
  chunk_count : Nat
  changes : Option Changes
deriving Repr, DecidableEq

/-- Embeds save_snapshot (database.py:131-191).  Here newId stands for the value of
generate_snapshot_id (time-plus-randomness, not modelled further).  If a
row with the same content hash exists, returns `unchanged` and writes
nothing; otherwise computes the diff against the active snapshot (zeros if
none) and inserts a new inactive row. -/
def save_snapshot (sha256 : String → String) (pyHash : String → Int)
    (newId : String) (chunks : List Chunk) (snapMeta : List (String × String))
    (db : DB) : SaveResult × DB :=
  let content_hash := compute_content_hash sha256 chunks
  match db.snapshots.find? (fun s => s.content_hash == content_hash) with
  | some existing =>
      (⟨existing.snapshot_id, "unchanged", existing.chunk_count, none⟩, db)
  | none =>
      let changes :=
        match db.snapshots.find? (fun s => s.is_active) with
        | some active => calcChanges pyHash active.chunks chunks
        | none => ⟨0, 0, 0⟩
      let snap : Snapshot :=
        ⟨newId, chunks.length, content_hash, chunks, snapMeta, false, none⟩
      (⟨newId, "created", chunks.length, some changes⟩,
       { db with snapshots := db.snapshots ++ [snap] })

/-- Embeds activate_snapshot (database.py:194-217): in one transaction, clear
`is_active` everywhere, then set it (stamping `deployed_at = NOW()`) on the
row whose `snapshot_id` matches; the returned Bool is
`result == "UPDATE 1"`, i.e. whether exactly one row matched.  Both updates
commit regardless of the match count. -/
def activate_snapshot (now : Nat) (sid : String) (db : DB) : Bool × DB :=
  let cleared := db.snapshots.map (fun s => { s with is_active := false })
  let updated := cleared.map (fun s =>
    if s.snapshot_id == sid then
      { s with is_active := true, deployed_at := some now }
    else s)
  (cleared.countP (fun s => s.snapshot_id == sid) == 1,
   { db with snapshots := updated })

/-- Embeds get_snapshot (database.py:242-263): fetch a snapshot row by id. -/
def get_snapshot (sid : String) (db : DB) : Option Snapshot :=
  db.snapshots.find? (fun s => s.snapshot_id == sid)

/-- Embeds get_active_snapshot (database.py:220-239). -/
def get_active_snapshot (db : DB) : Option Snapshot :=
  db.snapshots.find? (fun s => s.is_active)

/-- Embeds record_sync_start (database.py:292-303): insert a running history
row and return its id (modelled as the row count so far). -/
def record_sync_start (triggered_by : String) (db : DB) : Nat × DB :=
  let runId := db.history.length
  (runId,
   { db with history :=
       db.history ++ [⟨runId, "running", none, 0, 0, 0, none, triggered_by⟩] })

/-- Embeds record_sync_complete (database.py:306-323). -/
def record_sync_complete (runId : Nat) (sid : String)
    (added updated removed : Nat) (db : DB) : DB :=
  { db with history := db.history.map (fun r =>
      if r.runId == runId then
        { r with status := "success", snapshot_id := some sid,
                 chunks_added := added, chunks_updated := updated,
                 chunks_removed := removed }
      else r) }

/-- Embeds record_sync_error (database.py:326-336). -/
def record_sync_error (runId : Nat) (msg : String) (db : DB) : DB :=
  { db with history := db.history.map (fun r =>
      if r.runId == runId then
        { r with status := "failed", error_message := some msg }
      else r) }

/-- Embeds record_sync_paused (database.py:339-349). -/
def record_sync_paused (runId : Nat) (reason : String) (db : DB) : DB :=
  { db with history := db.history.map (fun r =>
      if r.runId == runId then
        { r with status := "paused", error_message := some reason }
      else r) }

/-- Embeds SAFETY_THRESHOLD_PERCENT (sync.py:21). -/
def SAFETY_THRESHOLD_PERCENT : ℚ := 30

/-- Embeds TYPE_TO_NAMESPACE (sync.py:24-30). -/
def TYPE_TO_NAMESPACE : List (String × String) :=
  [("lcd_policy", "lcd_policies"),
   ("hcpcs_code", "hcpcs_codes"),
   ("denial_reason", "denial_reasons"),
   ("documentation", "default"),
   ("appeal_strategy", "default")]

/-- Embeds calculate_change_percent (sync.py:581-586), floats modelled as
exact rationals. -/
def calculate_change_percent (old_count : Nat) (changes : Changes) : ℚ :=
  if old_count = 0 then 0
  else
    let total_changes : ℚ := changes.added + changes.updated + changes.removed
    (total_changes / old_count) * 100

/-- The safety-gate condition of `do_sync` (sync.py:702-704):
`old_count > 0 and not force` and the change percentage strictly exceeds
the threshold. -/
def gate_pauses (old_count : Nat) (changes : Changes) (force : Bool) : Bool :=
  decide (0 < old_count) && !force &&
    decide (SAFETY_THRESHOLD_PERCENT < calculate_change_percent old_count changes)

/-- The namespace a chunk is routed to in `deploy_to_pinecone`
(sync.py:594-595): `TYPE_TO_NAMESPACE.get(metadata.get("type", "default"),
"default")`. -/
def namespaceFor (c : Chunk) : String :=
  let chunk_type := pyGet c.metadata "type" "default"
  match TYPE_TO_NAMESPACE.find? (fun p => p.1 == chunk_type) with
  | some p => p.2
  | none => "default"

/-- The namespace keys of `by_namespace` in first-seen order (Python dict
insertion order). -/
def seenInsert (acc : List String) (s : String) : List String :=
  if s ∈ acc then acc else acc ++ [s]

/-- Namespaces appearing in a chunk list, in first-seen order. -/
def namespacesOf (chunks : List Chunk) : List String :=
  chunks.foldl (fun acc c => seenInsert acc (namespaceFor c)) []

/-- Embeds deploy_to_pinecone (sync.py:589-628) as the list of
(namespace, chunk) upserts it issues: chunks are grouped by namespace
(each group keeps source order, groups in first-seen order) and upserted
group by group.  Batching (size 10), embedding calls and inter-batch
sleeps only affect call granularity, not which vector lands in which
namespace, and are not modelled. -/
def deployLog (chunks : List Chunk) : List (String × Chunk) :=
  (namespacesOf chunks).flatMap (fun ns =>
    (chunks.filter (fun c => namespaceFor c == ns)).map (fun c => (ns, c)))

/-- Return value total_upserted of deploy_to_pinecone. -/
def deploy_total (chunks : List Chunk) : Nat :=
  (deployLog chunks).length

/-- The `SyncResult` pydantic model (sync.py:107-113), the fields the
embedded paths set (`duration_seconds` omitted: wall-clock only). -/
structure SyncResult where
  status : String
  snapshot_id : Option String
  chunks_updated : Nat
  message : String
  changes : Option Changes
deriving Repr, DecidableEq

/-- Embeds do_sync (sync.py:631-750) on a ready database.  Here fetched is what
fetch_fresh_chunks returned, newId the generated snapshot id, and now
the activation timestamp.  Returns the structured result, the final
database state, and the deploy log (empty when nothing was pushed to the
vector index).  The exception path (sync.py:746-750) is not reachable in
this model because the modelled collaborators do not throw. -/
def do_sync (sha256 : String → String) (pyHash : String → Int) (now : Nat)
    (newId : String) (fetched : List Chunk) (full force : Bool)
    (triggered_by : String) (db : DB) :
    SyncResult × DB × List (String × Chunk) :=
  let startR := record_sync_start triggered_by db
  let runId := startR.1
  let db1 := startR.2
  if fetched.isEmpty then
    (⟨"error", none, 0, "No chunks generated from Verity API", none⟩,
     record_sync_error runId "No chunks generated" db1, [])
  else
    let saveR := save_snapshot sha256 pyHash newId fetched
        [("triggered_by", triggered_by), ("full_sync", toString full)] db1
    let sres := saveR.1
    let db2 := saveR.2
    if sres.status == "unchanged" then
      (⟨"success", some sres.snapshot_id, 0, "Content unchanged, no update needed", none⟩,
       record_sync_complete runId sres.snapshot_id 0 0 0 db2, [])
    else
      let changes := sres.changes.getD ⟨0, 0, 0⟩
      let old_count := ((get_active_snapshot db2).map (fun s => s.chunk_count)).getD 0
      if gate_pauses old_count changes force then
        (⟨"paused", some sres.snapshot_id, 0, "Safety threshold exceeded", some changes⟩,
         record_sync_paused runId "Safety threshold exceeded" db2, [])
      else
        let log := deployLog fetched
        let total := deploy_total fetched
        let db3 := (activate_snapshot now sres.snapshot_id db2).2
        let db4 := record_sync_complete runId sres.snapshot_id
            changes.added changes.updated changes.removed db3
        (⟨"success", some sres.snapshot_id, total, "Synced vectors", some changes⟩,
         db4, log)

/-- The `RollbackResult` pydantic model, the fields the embedded paths
set. -/
structure RollbackResult where
  status : String
  rolled_back_to : String
  chunks_restored : Nat
  message : String
deriving Repr, DecidableEq

/-- Embeds rollback_to_snapshot (sync.py:816-861).  The 404 on a missing
snapshot is an `Except.error`; note it is raised before any history row is
opened.  The deploy/activate exception path is unreachable here for the
same reason as in `do_sync`. -/
def rollback_to_snapshot (now : Nat) (sid : String) (db : DB) :
    Except String RollbackResult × DB × List (String × Chunk) :=
  match get_snapshot sid db with
  | none => (.error "Snapshot not found", db, [])
  | some snap =>
    if snap.is_active then
      (.ok ⟨"no_change", sid, snap.chunk_count, "Snapshot is already active"⟩,
       db, [])
    else
      let startR := record_sync_start "rollback" db
      let runId := startR.1
      let db1 := startR.2
      let log := deployLog snap.chunks
      let total := deploy_total snap.chunks
      let db2 := (activate_snapshot now sid db1).2
      let db3 := record_sync_complete runId sid 0 total 0 db2
      (.ok ⟨"success", sid, total, "Successfully rolled back"⟩, db3, log)

/-- Embeds approve_paused_sync (sync.py:870-909): identical mechanics to
rollback, `triggered_by = "approve"`, result shaped as a `SyncResult`. -/
def approve_paused_sync (now : Nat) (sid : String) (db : DB) :
    Except String SyncResult × DB × List (String × Chunk) :=
  match get_snapshot sid db with
  | none => (.error "Snapshot not found", db, [])
  | some snap =>
    if snap.is_active then
      (.ok ⟨"no_change", some sid, 0, "Snapshot is already active", none⟩,
       db, [])
    else
      let startR := record_sync_start "approve" db
      let runId := startR.1
      let db1 := startR.2
      let log := deployLog snap.chunks
      let total := deploy_total snap.chunks
      let db2 := (activate_snapshot now sid db1).2
      let db3 := record_sync_complete runId sid 0 total 0 db2
      (.ok ⟨"success", some sid, total, "Approved and deployed", none⟩, db3, log)

/-- Number of active snapshot rows in the store. -/
def countActive (db : DB) : Nat :=
  db.snapshots.countP (fun s => s.is_active)

/-! ### Concrete sample data for witnesses and counterexamples -/

/-- A concrete stand-in for the opaque SHA-256 digest. -/
def idHash : String → String := fun s => s

/-- A concrete stand-in for the Python builtin string hash. -/
def lenHash : String → Int := fun s => s.length

/-- Sample chunk with a mapped type. -/
def sampleChunkA : Chunk := ⟨"a", "alpha", [("type", "lcd_policy")]⟩

/-- Sample chunk with no type metadata. -/
def sampleChunkB : Chunk := ⟨"b", "beta", []⟩

/-- Sample chunk whose type is absent from the namespace table. -/
def sampleChunkC : Chunk := ⟨"c", "gamma", [("type", "weird")]⟩

/-- A store holding one active snapshot. -/
def dbActiveA : DB := ⟨[⟨"snap_A", 1, "hash_A", [sampleChunkA], [], true, some 5⟩], []⟩

/-- A store holding one inactive snapshot. -/
def dbInactiveA : DB := ⟨[⟨"snap_A", 1, "hash_A", [sampleChunkA], [], false, none⟩], []⟩

/-- The empty store. -/
def dbEmpty : DB := ⟨[], []⟩

/-! ### Claim C1: activation exclusivity -/

/-- In a list of snapshots with pairwise distinct ids, the number of rows
matching a given id is one or zero according to whether the id occurs. -/
theorem countP_sid_of_nodup (l : List Snapshot) (sid : String)
    (h : (l.map Snapshot.snapshot_id).Nodup) :
    l.countP (fun s => s.snapshot_id == sid) =
      if l.any (fun s => s.snapshot_id == sid) then 1 else 0 := by
  induction l with
  | nil => simp
  | cons s t ih =>
    simp only [List.map_cons, List.nodup_cons] at h
    obtain ⟨hs, ht⟩ := h
    by_cases hmatch : s.snapshot_id = sid
    · have hzero : t.countP (fun x => x.snapshot_id == sid) = 0 := by
        refine List.countP_eq_zero.mpr ?_
        intro a ha
        simp only [beq_iff_eq]
        intro heq
        exact hs (hmatch ▸ heq ▸ List.mem_map_of_mem Snapshot.snapshot_id ha)
      simp [List.countP_cons, hmatch, hzero]
    · simp [List.countP_cons, hmatch, ih ht]

/-- After clearing, ids are unchanged, so the match count of the second
UPDATE equals the match count over the original rows. -/
theorem countP_sid_cleared (l : List Snapshot) (sid : String) :
    (l.map (fun s => { s with is_active := false })).countP
        (fun s => s.snapshot_id == sid) =
      l.countP (fun s => s.snapshot_id == sid) := by
  rw [List.countP_map]; rfl

/-- C1 (amended): after an activate_snapshot call, with snapshot ids
pairwise distinct (the UNIQUE column constraint), the number of active rows
is one when the target id exists and zero when it does not — in particular
at most one snapshot is ever active, but a call with a nonexistent id
deactivates the previously active snapshot rather than being a no-op.  The
returned flag is true exactly when the target id exists. -/
theorem activate_snapshot_exclusivity (now : Nat) (sid : String) (db : DB)
    (h : (db.snapshots.map Snapshot.snapshot_id).Nodup) :
    countActive (activate_snapshot now sid db).2 =
        (if db.snapshots.any (fun s => s.snapshot_id == sid) then 1 else 0)
    ∧ countActive (activate_snapshot now sid db).2 ≤ 1
    ∧ ((activate_snapshot now sid db).1 = true ↔
        db.snapshots.any (fun s => s.snapshot_id == sid) = true) := by
  have hcount : countActive (activate_snapshot now sid db).2 =
      db.snapshots.countP (fun s => s.snapshot_id == sid) := by
    simp only [countActive, activate_snapshot, List.countP_map]
    apply List.countP_congr
    intro s _
    by_cases hm : s.snapshot_id = sid <;> simp [Function.comp, hm]
  have hmain := countP_sid_of_nodup db.snapshots sid h
  refine ⟨hcount.trans hmain, ?_, ?_⟩
  · rw [hcount, hmain]
    split <;> simp
  · simp only [activate_snapshot, countP_sid_cleared, hmain]
    constructor
    · intro hone
      by_contra hany
      simp [hany] at hone
    · intro hany
      simp [hany]

/-- Witness for C1 (amended) at a concrete store: activating the one
existing snapshot leaves exactly one active row. -/
theorem activate_snapshot_exclusivity_witness :
    countActive (activate_snapshot 3 "snap_A" dbActiveA).2 = 1 := by
  have h := activate_snapshot_exclusivity 3 "snap_A" dbActiveA (by decide)
  simpa using h.1

/-- Counterexample to C1 as stated: after activating the existing snapshot
snap_A (one active row — so the first-ever activation has happened), a
further call with the nonexistent id snap_B leaves zero active rows,
violating "exactly one (or zero, before the first ever activation)". -/
theorem activate_sequence_zero_active_cex :
    countActive (activate_snapshot 1 "snap_A" dbInactiveA).2 = 1
    ∧ countActive
        (activate_snapshot 2 "snap_B"
          (activate_snapshot 1 "snap_A" dbInactiveA).2).2 = 0 := by
  exact ⟨rfl, rfl⟩

/-! ### Claim C2: activation of a missing id is reported notFound but is
not a no-op -/

/-- C2 (evaluating the code at the failing input): with snap_A active,
activate_snapshot on the missing id snap_missing returns false (notFound,
as claimed) but commits the deactivation of snap_A: the store ends with
zero active snapshots and snap_A flipped to inactive, so the call is not
the claimed all-or-nothing no-op. -/
theorem activate_missing_not_noop :
    activate_snapshot 9 "snap_missing" dbActiveA =
      (false, ⟨[⟨"snap_A", 1, "hash_A", [sampleChunkA], [], false, some 5⟩], []⟩)
    ∧ countActive (activate_snapshot 9 "snap_missing" dbActiveA).2 = 0
    ∧ countActive dbActiveA = 1 := by
  exact ⟨rfl, rfl, rfl⟩

/-! ### Claim C3: change counts when there is no prior active snapshot -/

/-- Counterexample to C3 as stated: saving a one-chunk set into an empty
store (no prior active snapshot) yields added = 0, not added = 1: the diff
is skipped entirely when no snapshot is active. -/
theorem save_snapshot_no_active_cex :
    (save_snapshot idHash lenHash "snap_new" [sampleChunkB] [] dbEmpty).1 =
      ⟨"snap_new", "created", 1, some ⟨0, 0, 0⟩⟩
    ∧ ((save_snapshot idHash lenHash "snap_new" [sampleChunkB] [] dbEmpty).1.changes
        ≠ some ⟨1, 0, 0⟩) := by
  exact ⟨rfl, by decide⟩

/-- C3 (amended): when no snapshot is active and the content hash is new,
save_snapshot returns status created with a ChangeSet of all zeros
(added = updated = removed = 0), because the diff loop is guarded by the
existence of an active snapshot. -/
theorem save_snapshot_no_active_zero_changes (sha256 : String → String)
    (pyHash : String → Int) (newId : String) (chunks : List Chunk)
    (snapMeta : List (String × String)) (db : DB)
    (hno : get_active_snapshot db = none)
    (hnew : db.snapshots.find?
        (fun s => s.content_hash == compute_content_hash sha256 chunks) = none) :
    (save_snapshot sha256 pyHash newId chunks snapMeta db).1 =
      ⟨newId, "created", chunks.length, some ⟨0, 0, 0⟩⟩ := by
  simp only [get_active_snapshot] at hno
  simp only [save_snapshot, hnew, hno]

/-- Witness for C3 (amended) at a concrete input. -/
theorem save_snapshot_no_active_zero_changes_witness :
    (save_snapshot idHash lenHash "snap_n2" [sampleChunkA, sampleChunkB] [] dbEmpty).1 =
      ⟨"snap_n2", "created", 2, some ⟨0, 0, 0⟩⟩ :=
  save_snapshot_no_active_zero_changes idHash lenHash "snap_n2"
    [sampleChunkA, sampleChunkB] [] dbEmpty rfl rfl

/-! ### Claim C7 counterexample: missing-snapshot outcomes leave no ledger
record -/

/-- Counterexample to C7 as stated: a rollback call whose target id does
not exist reaches the terminal snapshot-not-found outcome (an HTTP 404)
with no History Ledger record written — the history is untouched (here,
still empty), because the 404 is raised before any run is opened. -/
theorem rollback_not_found_no_ledger_cex :
    rollback_to_snapshot 0 "snap_missing" dbEmpty =
      (.error "Snapshot not found", dbEmpty, [])
    ∧ (rollback_to_snapshot 0 "snap_missing" dbEmpty).2.1.history = []
    ∧ approve_paused_sync 0 "snap_missing" dbEmpty =
      (.error "Snapshot not found", dbEmpty, []) := by
  exact ⟨rfl, rfl, rfl⟩

/-- Appending an inactive row does not change the active-row lookup. -/
theorem find_active_append_inactive (l : List Snapshot) (s : Snapshot)
    (hs : s.is_active = false) :
    (l ++ [s]).find? (fun x => x.is_active) = l.find? (fun x => x.is_active) := by
  rw [List.find?_append]
  cases h : l.find? (fun x => x.is_active) <;> simp [h, hs]

/-- The snapshot row inserted by save_snapshot for a given fetch. -/
def newSnapRow (sha256 : String → String) (newId : String)
    (fetched : List Chunk) (full : Bool) (tb : String) : Snapshot :=
  ⟨newId, fetched.length, compute_content_hash sha256 fetched, fetched,
   [("triggered_by", tb), ("full_sync", toString full)], false, none⟩

/-- The change counts do_sync works with when the hash is new: the diff
against the active snapshot, zeros when none is active. -/
def changesAgainstActive (pyHash : String → Int) (fetched : List Chunk)
    (db : DB) : Changes :=
  match get_active_snapshot db with
  | some a => calcChanges pyHash a.chunks fetched
  | none => ⟨0, 0, 0⟩

/-- The old chunk count do_sync feeds the safety gate. -/
def oldCountOf (db : DB) : Nat :=
  ((get_active_snapshot db).map Snapshot.chunk_count).getD 0

/-- Anatomy of do_sync on the created path (fetch nonempty, content hash
not previously stored): the run pauses or deploys according to the safety
gate, the new row is inserted either way, and nothing is deployed on the
paused branch. -/
theorem do_sync_created (sha256 : String → String) (pyHash : String → Int)
    (now : Nat) (newId : String) (fetched : List Chunk) (full force : Bool)
    (tb : String) (db : DB)
    (hne : fetched ≠ [])
    (hnew : db.snapshots.find?
        (fun s => s.content_hash == compute_content_hash sha256 fetched) = none) :
    (do_sync sha256 pyHash now newId fetched full force tb db).1.status =
        (if gate_pauses (oldCountOf db) (changesAgainstActive pyHash fetched db) force
         then "paused" else "success")
    ∧ (do_sync sha256 pyHash now newId fetched full force tb db).1.snapshot_id = some newId
    ∧ (do_sync sha256 pyHash now newId fetched full force tb db).1.changes =
        some (changesAgainstActive pyHash fetched db)
    ∧ (do_sync sha256 pyHash now newId fetched full force tb db).2.1.snapshots =
        (if gate_pauses (oldCountOf db) (changesAgainstActive pyHash fetched db) force
         then db.snapshots ++ [newSnapRow sha256 newId fetched full tb]
         else ((db.snapshots ++ [newSnapRow sha256 newId fetched full tb]).map
                 (fun s => { s with is_active := false })).map
                 (fun s => if s.snapshot_id == newId then
                     { s with is_active := true, deployed_at := some now } else s))
    ∧ (do_sync sha256 pyHash now newId fetched full force tb db).2.2 =
        (if gate_pauses (oldCountOf db) (changesAgainstActive pyHash fetched db) force
         then [] else deployLog fetched)
    ∧ (do_sync sha256 pyHash now newId fetched full force tb db).2.1.history =
        (if gate_pauses (oldCountOf db) (changesAgainstActive pyHash fetched db) force
         then (db.history ++ [(⟨db.history.length, "running", none, 0, 0, 0, none, tb⟩ : SyncRun)]).map
             (fun (r : SyncRun) => if r.runId == db.history.length then
                 { r with status := "paused",
                          error_message := some "Safety threshold exceeded" } else r)
         else (db.history ++ [(⟨db.history.length, "running", none, 0, 0, 0, none, tb⟩ : SyncRun)]).map
             (fun (r : SyncRun) => if r.runId == db.history.length then
                 { r with status := "success", snapshot_id := some newId,
                          chunks_added := (changesAgainstActive pyHash fetched db).added,
                          chunks_updated := (changesAgainstActive pyHash fetched db).updated,
                          chunks_removed := (changesAgainstActive pyHash fetched db).removed }
               else r)) := by
  have hne2 : fetched.isEmpty = false := by
    cases fetched with
    | nil => exact absurd rfl hne
    | cons a t => rfl
  have hactive : (db.snapshots ++ [newSnapRow sha256 newId fetched full tb]).find?
      (fun x => x.is_active) = db.snapshots.find? (fun x => x.is_active) :=
    find_active_append_inactive _ _ rfl
  unfold do_sync save_snapshot record_sync_start record_sync_paused record_sync_complete activate_snapshot
  simp only [hne2, Bool.false_eq_true, if_false, ite_false]
  simp only [hnew]
  simp only [get_active_snapshot, oldCountOf, changesAgainstActive, newSnapRow] at *
  simp only [hactive]
  by_cases hg : gate_pauses
      (((db.snapshots.find? (fun x => x.is_active)).map Snapshot.chunk_count).getD 0)
      (match db.snapshots.find? (fun x => x.is_active) with
       | some a => calcChanges pyHash a.chunks fetched
       | none => ⟨0, 0, 0⟩) force
  · simp [hg, Function.comp]
  · simp [hg, Function.comp]

/-! ### Claim C4: safety gate boundary -/

/-- C4: the gate of do_sync, with force = false, pauses exactly when the
change percentage (added+updated+removed)/oldCount*100 strictly exceeds the
30 percent threshold (at-threshold proceeds: 30 changed of 100 proceeds,
31 pauses); the percentage is 0 when oldCount = 0, so a first-ever sync
proceeds; force = true bypasses the gate entirely.  The last conjunct ties
the decision to do_sync itself on the created path. -/
theorem safety_gate_boundary (sha256 : String → String) (pyHash : String → Int)
    (now : Nat) (newId : String) (fetched : List Chunk) (full force : Bool)
    (tb : String) (db : DB)
    (hne : fetched ≠ [])
    (hnew : db.snapshots.find?
        (fun s => s.content_hash == compute_content_hash sha256 fetched) = none) :
    (∀ (oc : Nat) (ch : Changes), gate_pauses oc ch true = false)
    ∧ (∀ (oc : Nat) (ch : Changes),
        gate_pauses oc ch false =
          decide (SAFETY_THRESHOLD_PERCENT < calculate_change_percent oc ch))
    ∧ (∀ ch : Changes, calculate_change_percent 0 ch = 0)
    ∧ gate_pauses 100 ⟨30, 0, 0⟩ false = false
    ∧ gate_pauses 100 ⟨31, 0, 0⟩ false = true
    ∧ ((do_sync sha256 pyHash now newId fetched full force tb db).1.status = "paused"
        ↔ gate_pauses (oldCountOf db) (changesAgainstActive pyHash fetched db) force = true) := by
  refine ⟨?_, ?_, ?_, ?_, ?_, ?_⟩
  · intro oc ch
    simp [gate_pauses]
  · intro oc ch
    cases oc with
    | zero => simp [gate_pauses, calculate_change_percent, SAFETY_THRESHOLD_PERCENT]
    | succ n => simp [gate_pauses]
  · intro ch
    simp [calculate_change_percent]
  · simp [gate_pauses, calculate_change_percent, SAFETY_THRESHOLD_PERCENT]
  · simp [gate_pauses, calculate_change_percent, SAFETY_THRESHOLD_PERCENT]
    norm_num
  · obtain ⟨hst, -, -, -, -, -⟩ :=
      do_sync_created sha256 pyHash now newId fetched full force tb db hne hnew
    rw [hst]
    by_cases hg : gate_pauses (oldCountOf db) (changesAgainstActive pyHash fetched db) force = true
    · simp [hg]
    · simp [hg]

/-- Witness for C4 at concrete inputs: a fresh fetch against the store
holding one active snapshot. -/
theorem safety_gate_boundary_witness :
    gate_pauses 100 ⟨30, 0, 0⟩ false = false
    ∧ gate_pauses 100 ⟨31, 0, 0⟩ false = true
    ∧ ((do_sync idHash lenHash 7 "snap_w4" [sampleChunkB] false false "manual" dbActiveA).1.status = "paused"
        ↔ gate_pauses (oldCountOf dbActiveA)
            (changesAgainstActive lenHash [sampleChunkB] dbActiveA) false = true) := by
  have h := safety_gate_boundary idHash lenHash 7 "snap_w4" [sampleChunkB] false false
    "manual" dbActiveA (by decide) (by decide)
  exact ⟨h.2.2.2.1, h.2.2.2.2.1, h.2.2.2.2.2⟩

/-! ### Claim C8: a paused run deploys nothing and preserves the new
snapshot inactive -/

/-- C8: when the safety gate pauses a sync (created path, gate condition
true), do_sync stops with status paused, issues no upserts to the vector
index, and the newly created snapshot row is persisted inactive and is
retrievable by get_snapshot afterwards (for a later Approve). -/
theorem pause_preserves_state (sha256 : String → String) (pyHash : String → Int)
    (now : Nat) (newId : String) (fetched : List Chunk) (full force : Bool)
    (tb : String) (db : DB)
    (hne : fetched ≠ [])
    (hnew : db.snapshots.find?
        (fun s => s.content_hash == compute_content_hash sha256 fetched) = none)
    (hfresh : ∀ s ∈ db.snapshots, s.snapshot_id ≠ newId)
    (hg : gate_pauses (oldCountOf db) (changesAgainstActive pyHash fetched db) force = true) :
    (do_sync sha256 pyHash now newId fetched full force tb db).1.status = "paused"
    ∧ (do_sync sha256 pyHash now newId fetched full force tb db).1.snapshot_id = some newId
    ∧ (do_sync sha256 pyHash now newId fetched full force tb db).2.2 = []
    ∧ (do_sync sha256 pyHash now newId fetched full force tb db).2.1.snapshots =
        db.snapshots ++ [newSnapRow sha256 newId fetched full tb]
    ∧ get_snapshot newId (do_sync sha256 pyHash now newId fetched full force tb db).2.1 =
        some (newSnapRow sha256 newId fetched full tb)
    ∧ (newSnapRow sha256 newId fetched full tb).is_active = false := by
  obtain ⟨h1, h2, -, h4, h5, -⟩ :=
    do_sync_created sha256 pyHash now newId fetched full force tb db hne hnew
  rw [hg] at h1 h4 h5
  simp only [if_true] at h1 h4 h5
  have hnone : db.snapshots.find? (fun s => s.snapshot_id == newId) = none := by
    refine List.find?_eq_none.mpr ?_
    intro a ha
    simpa using hfresh a ha
  refine ⟨h1, h2, h5, h4, ?_, rfl⟩
  rw [get_snapshot, h4, List.find?_append, hnone]
  simp [newSnapRow]

/-- Witness for C8: syncing two fresh chunks against a one-chunk active
snapshot changes 300 percent of the index, so the gate pauses; the new
snapshot is stored inactive and retrievable. -/
theorem pause_preserves_state_witness :
    (do_sync idHash lenHash 7 "snap_P" [sampleChunkB, sampleChunkC] false false "manual" dbActiveA).1.status = "paused"
    ∧ (do_sync idHash lenHash 7 "snap_P" [sampleChunkB, sampleChunkC] false false "manual" dbActiveA).2.2 = []
    ∧ get_snapshot "snap_P"
        (do_sync idHash lenHash 7 "snap_P" [sampleChunkB, sampleChunkC] false false "manual" dbActiveA).2.1 =
        some (newSnapRow idHash "snap_P" [sampleChunkB, sampleChunkC] false "manual")
    ∧ (newSnapRow idHash "snap_P" [sampleChunkB, sampleChunkC] false "manual").is_active = false := by
  have hch : changesAgainstActive lenHash [sampleChunkB, sampleChunkC] dbActiveA = ⟨2, 0, 1⟩ := by
    decide
  have hoc : oldCountOf dbActiveA = 1 := by decide
  have h := pause_preserves_state idHash lenHash 7 "snap_P" [sampleChunkB, sampleChunkC]
    false false "manual" dbActiveA (by decide) (by decide) (by decide)
    (by rw [hch, hoc]
        simp [gate_pauses, calculate_change_percent, SAFETY_THRESHOLD_PERCENT]
        norm_num)
  exact ⟨h.1, h.2.2.1, h.2.2.2.2.1, h.2.2.2.2.2⟩

/-! ### Claim C9: rollback/approve to the active snapshot is a no-op -/

/-- C9: when the target snapshot of a rollback (or approve) call is
currently active, the call returns status no_change, leaves the store and
the history ledger untouched (no new sync-history run), and deploys
nothing. -/
theorem rollback_active_no_change (now : Nat) (sid : String) (db : DB)
    (s : Snapshot)
    (h : get_snapshot sid db = some s) (ha : s.is_active = true) :
    rollback_to_snapshot now sid db =
      (.ok ⟨"no_change", sid, s.chunk_count, "Snapshot is already active"⟩, db, [])
    ∧ approve_paused_sync now sid db =
      (.ok ⟨"no_change", some sid, 0, "Snapshot is already active", none⟩, db, []) := by
  constructor
  · unfold rollback_to_snapshot
    rw [h]
    simp [ha]
  · unfold approve_paused_sync
    rw [h]
    simp [ha]

/-- Witness for C9 at the store whose only snapshot is active. -/
theorem rollback_active_no_change_witness :
    rollback_to_snapshot 4 "snap_A" dbActiveA =
      (.ok ⟨"no_change", "snap_A", 1, "Snapshot is already active"⟩, dbActiveA, [])
    ∧ approve_paused_sync 4 "snap_A" dbActiveA =
      (.ok ⟨"no_change", some "snap_A", 0, "Snapshot is already active", none⟩, dbActiveA, []) :=
  rollback_active_no_change 4 "snap_A" dbActiveA
    ⟨"snap_A", 1, "hash_A", [sampleChunkA], [], true, some 5⟩ (by decide) rfl

/-! ### Claim C5: unchanged content is idempotent -/

/-- Anatomy of do_sync when the fetched content hash is already stored:
save_snapshot reports unchanged, the run completes as success with zero
counts, no snapshot row is added, and nothing is deployed. -/
theorem do_sync_unchanged (sha256 : String → String) (pyHash : String → Int)
    (now : Nat) (newId : String) (fetched : List Chunk) (full force : Bool)
    (tb : String) (db : DB) (s : Snapshot)
    (hne : fetched ≠ [])
    (hm : db.snapshots.find?
        (fun x => x.content_hash == compute_content_hash sha256 fetched) = some s) :
    (do_sync sha256 pyHash now newId fetched full force tb db).1 =
        ⟨"success", some s.snapshot_id, 0, "Content unchanged, no update needed", none⟩
    ∧ (do_sync sha256 pyHash now newId fetched full force tb db).2.1.snapshots =
        db.snapshots
    ∧ (do_sync sha256 pyHash now newId fetched full force tb db).2.2 = []
    ∧ (do_sync sha256 pyHash now newId fetched full force tb db).2.1.history =
        (db.history ++ [(⟨db.history.length, "running", none, 0, 0, 0, none, tb⟩ : SyncRun)]).map
          (fun (r : SyncRun) => if r.runId == db.history.length then
              { r with status := "success", snapshot_id := some s.snapshot_id,
                       chunks_added := 0, chunks_updated := 0, chunks_removed := 0 }
            else r) := by
  have hne2 : fetched.isEmpty = false := by
    cases fetched with
    | nil => exact absurd rfl hne
    | cons a t => rfl
  unfold do_sync save_snapshot record_sync_start record_sync_complete
  simp only [hne2, Bool.false_eq_true, if_false, ite_false]
  simp only [hm]
  simp

/-- After any completed sync of a nonempty fetch, some stored snapshot
carries the content hash of the fetched chunks (either it already existed,
or the run inserted it — activation does not change hashes). -/
theorem content_hash_mem_after_sync (sha256 : String → String)
    (pyHash : String → Int) (now : Nat) (newId : String) (fetched : List Chunk)
    (full force : Bool) (tb : String) (db : DB) (hne : fetched ≠ []) :
    ∃ s ∈ (do_sync sha256 pyHash now newId fetched full force tb db).2.1.snapshots,
      s.content_hash = compute_content_hash sha256 fetched := by
  cases hfind : db.snapshots.find?
      (fun x => x.content_hash == compute_content_hash sha256 fetched) with
  | some e =>
    obtain ⟨-, hsnap, -, -⟩ :=
      do_sync_unchanged sha256 pyHash now newId fetched full force tb db e hne hfind
    refine ⟨e, ?_, ?_⟩
    · rw [hsnap]
      exact List.mem_of_find?_eq_some hfind
    · have hp := List.find?_some hfind
      simpa using hp
  | none =>
    obtain ⟨-, -, -, hsnap, -, -⟩ :=
      do_sync_created sha256 pyHash now newId fetched full force tb db hne hfind
    by_cases hg : gate_pauses (oldCountOf db) (changesAgainstActive pyHash fetched db) force = true
    · rw [hg] at hsnap
      simp only [if_true] at hsnap
      exact ⟨newSnapRow sha256 newId fetched full tb, by rw [hsnap]; simp, rfl⟩
    · rw [if_neg hg] at hsnap
      refine ⟨(fun s => if s.snapshot_id == newId then
            { s with is_active := true, deployed_at := some now } else s)
          ((fun s => { s with is_active := false }) (newSnapRow sha256 newId fetched full tb)),
          ?_, ?_⟩
      · rw [hsnap]
        exact List.mem_map_of_mem _ (List.mem_map_of_mem _ (by simp))
      · simp only [newSnapRow]
        split <;> rfl

/-- C5: a fetch whose content hash matches an already-stored snapshot makes
save_snapshot return unchanged with that existing id and insert nothing;
the surrounding sync run completes as success with zero change counts; and
running sync twice on an unchanged source is idempotent: the second run is
a success with zero counts that adds no snapshot row and deploys
nothing. -/
theorem unchanged_sync_idempotent (sha256 : String → String)
    (pyHash : String → Int) (now : Nat) (newId : String) (fetched : List Chunk)
    (full force : Bool) (tb : String) (snapMeta : List (String × String))
    (db : DB) (s : Snapshot)
    (hm : db.snapshots.find?
        (fun x => x.content_hash == compute_content_hash sha256 fetched) = some s)
    (hne : fetched ≠ []) :
    save_snapshot sha256 pyHash newId fetched snapMeta db =
        (⟨s.snapshot_id, "unchanged", s.chunk_count, none⟩, db)
    ∧ (do_sync sha256 pyHash now newId fetched full force tb db).1 =
        ⟨"success", some s.snapshot_id, 0, "Content unchanged, no update needed", none⟩
    ∧ (do_sync sha256 pyHash now newId fetched full force tb db).2.1.snapshots =
        db.snapshots
    ∧ (do_sync sha256 pyHash now newId fetched full force tb db).2.2 = []
    ∧ (∃ run ∈ (do_sync sha256 pyHash now newId fetched full force tb db).2.1.history,
        run.runId = db.history.length ∧ run.status = "success"
        ∧ run.chunks_added = 0 ∧ run.chunks_updated = 0 ∧ run.chunks_removed = 0)
    ∧ (∀ (db0 : DB) (now1 now2 : Nat) (id1 id2 : String) (fl1 fo1 fl2 fo2 : Bool)
        (t1 t2 : String),
        (do_sync sha256 pyHash now2 id2 fetched fl2 fo2 t2
            (do_sync sha256 pyHash now1 id1 fetched fl1 fo1 t1 db0).2.1).1.status = "success"
        ∧ (do_sync sha256 pyHash now2 id2 fetched fl2 fo2 t2
            (do_sync sha256 pyHash now1 id1 fetched fl1 fo1 t1 db0).2.1).1.chunks_updated = 0
        ∧ (do_sync sha256 pyHash now2 id2 fetched fl2 fo2 t2
            (do_sync sha256 pyHash now1 id1 fetched fl1 fo1 t1 db0).2.1).1.changes = none
        ∧ (do_sync sha256 pyHash now2 id2 fetched fl2 fo2 t2
            (do_sync sha256 pyHash now1 id1 fetched fl1 fo1 t1 db0).2.1).2.1.snapshots =
            (do_sync sha256 pyHash now1 id1 fetched fl1 fo1 t1 db0).2.1.snapshots
        ∧ (do_sync sha256 pyHash now2 id2 fetched fl2 fo2 t2
            (do_sync sha256 pyHash now1 id1 fetched fl1 fo1 t1 db0).2.1).2.2 = []) := by
  obtain ⟨h1, h2, h3, h4⟩ :=
    do_sync_unchanged sha256 pyHash now newId fetched full force tb db s hne hm
  refine ⟨?_, h1, h2, h3, ?_, ?_⟩
  · unfold save_snapshot
    simp only [hm]
  · rw [h4]
    refine ⟨(fun (r : SyncRun) => if r.runId == db.history.length then
        { r with status := "success", snapshot_id := some s.snapshot_id,
                 chunks_added := 0, chunks_updated := 0, chunks_removed := 0 }
      else r) ⟨db.history.length, "running", none, 0, 0, 0, none, tb⟩,
      List.mem_map_of_mem _ (by simp), ?_⟩
    simp
  · intro db0 now1 now2 id1 id2 fl1 fo1 fl2 fo2 t1 t2
    obtain ⟨e, hmem, heq⟩ := content_hash_mem_after_sync sha256 pyHash now1 id1 fetched
      fl1 fo1 t1 db0 hne
    have hsome : ((do_sync sha256 pyHash now1 id1 fetched fl1 fo1 t1 db0).2.1.snapshots.find?
        (fun x => x.content_hash == compute_content_hash sha256 fetched)).isSome := by
      rw [List.find?_isSome]
      exact ⟨e, hmem, by simp [heq]⟩
    obtain ⟨e2, hfind2⟩ := Option.isSome_iff_exists.mp hsome
    obtain ⟨r1, r2, r3, -⟩ := do_sync_unchanged sha256 pyHash now2 id2 fetched fl2 fo2 t2
      (do_sync sha256 pyHash now1 id1 fetched fl1 fo1 t1 db0).2.1 e2 hne hfind2
    exact ⟨by rw [r1], by rw [r1], by rw [r1], r2, r3⟩

/-- A store whose single active snapshot carries the real content hash of
its chunks (as save_snapshot would have written it). -/
def dbHashed : DB :=
  ⟨[⟨"snap_H", 1, compute_content_hash idHash [sampleChunkA], [sampleChunkA], [], true, some 5⟩], []⟩

/-- Witness for C5: re-fetching the exact content of the active snapshot
of a one-snapshot store. -/
theorem unchanged_sync_idempotent_witness :
    save_snapshot idHash lenHash "snap_R" [sampleChunkA] [] dbHashed =
      (⟨"snap_H", "unchanged", 1, none⟩, dbHashed)
    ∧ (do_sync idHash lenHash 8 "snap_R" [sampleChunkA] false false "api" dbHashed).1 =
      ⟨"success", some "snap_H", 0, "Content unchanged, no update needed", none⟩ := by
  have h := unchanged_sync_idempotent idHash lenHash 8 "snap_R" [sampleChunkA]
    false false "api" [] dbHashed
    ⟨"snap_H", 1, compute_content_hash idHash [sampleChunkA], [sampleChunkA], [], true, some 5⟩
    (by decide) (by decide)
  exact ⟨h.1, h.2.1⟩

/-! ### Claim C7: terminal outcomes and the history ledger -/

/-- Anatomy of do_sync on an empty fetch: the run fails, the failure is
recorded, nothing is stored or deployed. -/
theorem do_sync_empty (sha256 : String → String) (pyHash : String → Int)
    (now : Nat) (newId : String) (full force : Bool) (tb : String) (db : DB) :
    (do_sync sha256 pyHash now newId [] full force tb db).1 =
      ⟨"error", none, 0, "No chunks generated from Verity API", none⟩
    ∧ (do_sync sha256 pyHash now newId [] full force tb db).2.1.snapshots = db.snapshots
    ∧ (do_sync sha256 pyHash now newId [] full force tb db).2.2 = []
    ∧ (do_sync sha256 pyHash now newId [] full force tb db).2.1.history =
        (db.history ++ [(⟨db.history.length, "running", none, 0, 0, 0, none, tb⟩ : SyncRun)]).map
          (fun (r : SyncRun) => if r.runId == db.history.length then
              { r with status := "failed", error_message := some "No chunks generated" }
            else r) := by
  unfold do_sync record_sync_start record_sync_error
  simp

/-- Anatomy of rollback_to_snapshot on an inactive existing target: it
opens a rollback run, deploys the stored chunks, and records success. -/
theorem rollback_inactive (now : Nat) (sid : String) (db : DB) (snap : Snapshot)
    (h : get_snapshot sid db = some snap) (hia : snap.is_active = false) :
    (rollback_to_snapshot now sid db).1 =
      .ok ⟨"success", sid, deploy_total snap.chunks, "Successfully rolled back"⟩
    ∧ (rollback_to_snapshot now sid db).2.2 = deployLog snap.chunks
    ∧ (rollback_to_snapshot now sid db).2.1.history =
        (db.history ++ [(⟨db.history.length, "running", none, 0, 0, 0, none, "rollback"⟩ : SyncRun)]).map
          (fun (r : SyncRun) => if r.runId == db.history.length then
              { r with status := "success", snapshot_id := some sid,
                       chunks_added := 0, chunks_updated := deploy_total snap.chunks,
                       chunks_removed := 0 }
            else r) := by
  unfold rollback_to_snapshot record_sync_start record_sync_complete activate_snapshot
  rw [h]
  simp [hia]

/-- Anatomy of approve_paused_sync on an inactive existing target. -/
theorem approve_inactive (now : Nat) (sid : String) (db : DB) (snap : Snapshot)
    (h : get_snapshot sid db = some snap) (hia : snap.is_active = false) :
    (approve_paused_sync now sid db).1 =
      .ok ⟨"success", some sid, deploy_total snap.chunks, "Approved and deployed", none⟩
    ∧ (approve_paused_sync now sid db).2.2 = deployLog snap.chunks
    ∧ (approve_paused_sync now sid db).2.1.history =
        (db.history ++ [(⟨db.history.length, "running", none, 0, 0, 0, none, "approve"⟩ : SyncRun)]).map
          (fun (r : SyncRun) => if r.runId == db.history.length then
              { r with status := "success", snapshot_id := some sid,
                       chunks_added := 0, chunks_updated := deploy_total snap.chunks,
                       chunks_removed := 0 }
            else r) := by
  unfold approve_paused_sync record_sync_start record_sync_complete activate_snapshot
  rw [h]
  simp [hia]

/-- The image of the just-appended row is in the mapped history. -/
theorem mem_map_append_last {α β : Type} (f : α → β) (l : List α) (x : α) :
    f x ∈ (l ++ [x]).map f :=
  List.mem_map_of_mem f (by simp)

/-- C7 (amended): every terminal outcome of do_sync (success, paused, or
the no-chunks failure, surfaced as status error) is recorded in the history
ledger — the run opened by the call ends in the matching terminal status
(failed for the error result) in the returned state, i.e. before the
result is surfaced; rollback and approve likewise record their success
outcome; but — the amendment — the snapshot-not-found outcome of rollback
and approve is surfaced (as a 404) with no ledger record at all, since the
existence check precedes the opening of a run. -/
theorem terminal_outcomes_recorded (sha256 : String → String)
    (pyHash : String → Int) (now : Nat) :
    (∀ (newId : String) (fetched : List Chunk) (full force : Bool) (tb : String) (db : DB),
      ∃ run ∈ (do_sync sha256 pyHash now newId fetched full force tb db).2.1.history,
        run.runId = db.history.length ∧ run.triggered_by = tb ∧
        run.status =
          (if (do_sync sha256 pyHash now newId fetched full force tb db).1.status = "error"
           then "failed"
           else (do_sync sha256 pyHash now newId fetched full force tb db).1.status))
    ∧ (∀ (sid : String) (db : DB) (snap : Snapshot),
        get_snapshot sid db = some snap → snap.is_active = false →
        ∃ run ∈ (rollback_to_snapshot now sid db).2.1.history,
          run.runId = db.history.length ∧ run.triggered_by = "rollback"
          ∧ run.status = "success")
    ∧ (∀ (sid : String) (db : DB), get_snapshot sid db = none →
        rollback_to_snapshot now sid db = (.error "Snapshot not found", db, []))
    ∧ (∀ (sid : String) (db : DB) (snap : Snapshot),
        get_snapshot sid db = some snap → snap.is_active = false →
        ∃ run ∈ (approve_paused_sync now sid db).2.1.history,
          run.runId = db.history.length ∧ run.triggered_by = "approve"
          ∧ run.status = "success")
    ∧ (∀ (sid : String) (db : DB), get_snapshot sid db = none →
        approve_paused_sync now sid db = (.error "Snapshot not found", db, [])) := by
  refine ⟨?_, ?_, ?_, ?_, ?_⟩
  · intro newId fetched full force tb db
    by_cases hfe : fetched = []
    · subst hfe
      obtain ⟨h1, -, -, h4⟩ := do_sync_empty sha256 pyHash now newId full force tb db
      rw [h1, h4]
      exact ⟨_, mem_map_append_last _ _ _, by simp⟩
    · cases hfind : db.snapshots.find?
          (fun x => x.content_hash == compute_content_hash sha256 fetched) with
      | some e =>
        obtain ⟨h1, -, -, h4⟩ :=
          do_sync_unchanged sha256 pyHash now newId fetched full force tb db e hfe hfind
        rw [h1, h4]
        exact ⟨_, mem_map_append_last _ _ _, by simp⟩
      | none =>
        obtain ⟨h1, -, -, -, -, h6⟩ :=
          do_sync_created sha256 pyHash now newId fetched full force tb db hfe hfind
        rw [h1, h6]
        by_cases hg : gate_pauses (oldCountOf db) (changesAgainstActive pyHash fetched db) force = true
        · rw [if_pos hg, if_pos hg]
          exact ⟨_, mem_map_append_last _ _ _, by simp⟩
        · rw [if_neg hg, if_neg hg]
          exact ⟨_, mem_map_append_last _ _ _, by simp⟩
  · intro sid db snap h hia
    obtain ⟨-, -, h3⟩ := rollback_inactive now sid db snap h hia
    rw [h3]
    exact ⟨_, mem_map_append_last _ _ _, by simp⟩
  · intro sid db h
    unfold rollback_to_snapshot
    rw [h]
  · intro sid db snap h hia
    obtain ⟨-, -, h3⟩ := approve_inactive now sid db snap h hia
    rw [h3]
    exact ⟨_, mem_map_append_last _ _ _, by simp⟩
  · intro sid db h
    unfold approve_paused_sync
    rw [h]

/-- Witness for C7 (amended): a manual sync of one fresh chunk against the
one-snapshot store ends with a ledger run in a terminal status matching the
result, and a rollback to an unknown id writes nothing. -/
theorem terminal_outcomes_recorded_witness :
    (∃ run ∈ (do_sync idHash lenHash 6 "snap_T" [sampleChunkB] false false "manual" dbActiveA).2.1.history,
      run.runId = 0 ∧ run.triggered_by = "manual" ∧
      run.status =
        (if (do_sync idHash lenHash 6 "snap_T" [sampleChunkB] false false "manual" dbActiveA).1.status = "error"
         then "failed"
         else (do_sync idHash lenHash 6 "snap_T" [sampleChunkB] false false "manual" dbActiveA).1.status))
    ∧ rollback_to_snapshot 6 "snap_missing" dbActiveA =
        (.error "Snapshot not found", dbActiveA, []) := by
  have h := terminal_outcomes_recorded idHash lenHash 6
  refine ⟨?_, h.2.2.1 "snap_missing" dbActiveA (by decide)⟩
  have h0 := h.1 "snap_T" [sampleChunkB] false false "manual" dbActiveA
  simpa [dbActiveA] using h0

/-! ### Claim C6: diff correctness -/

/-- The per-chunk content digest the diff compares at a given id: the hash
of the text of the (unique) chunk with that id, if any. -/
def digestAt (pyHash : String → Int) (l : List Chunk) (i : String) : Option Int :=
  (l.find? (fun c => c.id == i)).map (fun c => pyHash c.text)

/-- With pairwise distinct ids, building the Python dict never overwrites:
it appends each (id, chunk) pair in order. -/
theorem foldl_dictInsert_eq (l : List Chunk) : ∀ (acc : List (String × Chunk)),
    (∀ c ∈ l, ∀ p ∈ acc, p.1 ≠ c.id) → (l.map Chunk.id).Nodup →
    l.foldl dictInsert acc = acc ++ l.map (fun c => (c.id, c)) := by
  induction l with
  | nil => intro acc _ _; simp
  | cons c t ih =>
    intro acc hdisj hnd
    simp only [List.map_cons, List.nodup_cons] at hnd
    obtain ⟨hct, hndt⟩ := hnd
    have hnotin : acc.any (fun p => p.1 == c.id) = false := by
      rw [List.any_eq_false]
      intro p hp
      simpa using hdisj c (by simp) p hp
    have hstep : dictInsert acc c = acc ++ [(c.id, c)] := by
      rw [dictInsert, hnotin]
      simp
    rw [List.foldl_cons, hstep, ih (acc ++ [(c.id, c)]) ?_ hndt]
    · simp
    · intro x hx p hp
      rcases List.mem_append.mp hp with hpa | hpc
      · exact hdisj x (by simp [hx]) p hpa
      · have hpe : p = (c.id, c) := by simpa using hpc
        subst hpe
        simp only []
        intro hcx
        exact hct (hcx ▸ List.mem_map_of_mem Chunk.id hx)

/-- With pairwise distinct ids the diff dict is just the association list
of the chunks in order. -/
theorem toDict_of_nodup (l : List Chunk) (h : (l.map Chunk.id).Nodup) :
    toDict l = l.map (fun c => (c.id, c)) := by
  have := foldl_dictInsert_eq l [] (by simp) h
  simpa [toDict] using this

/-- Looking up the dict of a chunk list is finding the first chunk with
that id. -/
theorem dictFind_map_eq (l : List Chunk) (k : String) :
    dictFind (l.map (fun c => (c.id, c))) k = l.find? (fun c => c.id == k) := by
  rw [dictFind, List.find?_map]
  have hpred : ((fun p : String × Chunk => p.1 == k) ∘ fun c => (c.id, c)) =
      (fun c => c.id == k) := rfl
  rw [hpred]
  cases h : l.find? (fun c => c.id == k) with
  | none => rfl
  | some c => rfl

/-- Under distinct ids, searching a list for the id of one of its members
finds exactly that member. -/
theorem find?_id_self (l : List Chunk) (h : (l.map Chunk.id).Nodup)
    (c : Chunk) (hc : c ∈ l) : l.find? (fun x => x.id == c.id) = some c := by
  induction l with
  | nil => cases hc
  | cons a t ih =>
    simp only [List.map_cons, List.nodup_cons] at h
    obtain ⟨hat, hndt⟩ := h
    rcases List.mem_cons.mp hc with rfl | hct
    · simp
    · have hne : (a.id == c.id) = false := by
        rw [beq_eq_false_iff_ne]
        intro heq
        exact hat (heq ▸ List.mem_map_of_mem Chunk.id hct)
      rw [List.find?_cons, hne]
      exact ih hndt hct

/-- Counting with a predicate over a duplicate-free list of ids is the card
of the corresponding Finset filter. -/
theorem countP_eq_card_filter_toFinset (l : List String) (p : String → Bool)
    (h : l.Nodup) : l.countP p = (l.toFinset.filter (fun i => p i)).card := by
  rw [List.countP_eq_length_filter, ← List.toFinset_card_of_nodup (h.filter p),
    List.toFinset_filter]

/-- The added/removed count of the diff loop: entries of one dict whose id
is absent from the other dict, as a Finset difference of id sets. -/
theorem length_filter_absent (a b : List Chunk)
    (ha : (a.map Chunk.id).Nodup) (hb : (b.map Chunk.id).Nodup) :
    ((toDict a).filter (fun p => (dictFind (toDict b) p.1).isNone)).length =
      ((a.map Chunk.id).toFinset \ (b.map Chunk.id).toFinset).card := by
  rw [toDict_of_nodup a ha, toDict_of_nodup b hb]
  rw [← List.countP_eq_length_filter, List.countP_map]
  have hstep : ∀ c ∈ a,
      (((fun p : String × Chunk => (dictFind (b.map (fun c => (c.id, c))) p.1).isNone) ∘
        (fun c => (c.id, c))) c = true ↔ decide (¬ c.id ∈ b.map Chunk.id) = true) := by
    intro c _
    simp only [Function.comp, dictFind_map_eq]
    cases hf : b.find? (fun x => x.id == c.id) with
    | none =>
      have hmem : ¬ c.id ∈ b.map Chunk.id := by
        intro hmem
        rcases List.mem_map.mp hmem with ⟨x, hx, hxe⟩
        have := List.find?_eq_none.mp hf x hx
        simp [hxe] at this
      simp [hmem]
    | some x =>
      have hx : x ∈ b := List.mem_of_find?_eq_some hf
      have hxe : x.id = c.id := by simpa using List.find?_some hf
      have hmem : c.id ∈ b.map Chunk.id := hxe ▸ List.mem_map_of_mem Chunk.id hx
      simp [hmem]
  rw [List.countP_congr hstep]
  have : a.countP (fun c => decide (¬ c.id ∈ b.map Chunk.id)) =
      (a.map Chunk.id).countP (fun i => decide (¬ i ∈ b.map Chunk.id)) := by
    rw [List.countP_map]
    rfl
  rw [this, countP_eq_card_filter_toFinset _ _ ha]
  congr 1
  ext i
  simp

/-- The updated count of the diff loop: ids present in both chunk sets
whose per-chunk content digest differs, as a Finset filter over the
intersection of id sets. -/
theorem length_filter_updated (pyHash : String → Int) (oldC newC : List Chunk)
    (hold : (oldC.map Chunk.id).Nodup) (hnew : (newC.map Chunk.id).Nodup) :
    ((toDict newC).filter (fun p =>
        match dictFind (toDict oldC) p.1 with
        | some oc => decide (pyHash p.2.text ≠ pyHash oc.text)
        | none => false)).length =
      (((newC.map Chunk.id).toFinset ∩ (oldC.map Chunk.id).toFinset).filter
        (fun i => digestAt pyHash newC i ≠ digestAt pyHash oldC i)).card := by
  rw [toDict_of_nodup newC hnew, toDict_of_nodup oldC hold]
  rw [← List.countP_eq_length_filter, List.countP_map]
  have hstep : ∀ c ∈ newC,
      (((fun p : String × Chunk =>
          match dictFind (oldC.map (fun c => (c.id, c))) p.1 with
          | some oc => decide (pyHash p.2.text ≠ pyHash oc.text)
          | none => false) ∘ (fun c => (c.id, c))) c = true ↔
        decide (c.id ∈ oldC.map Chunk.id ∧
          digestAt pyHash newC c.id ≠ digestAt pyHash oldC c.id) = true) := by
    intro c hc
    have hdnew : digestAt pyHash newC c.id = some (pyHash c.text) := by
      rw [digestAt, find?_id_self newC hnew c hc]
      rfl
    simp only [Function.comp, dictFind_map_eq]
    cases hf : oldC.find? (fun x => x.id == c.id) with
    | none =>
      have hmem : ¬ c.id ∈ oldC.map Chunk.id := by
        intro hmem
        rcases List.mem_map.mp hmem with ⟨x, hx, hxe⟩
        have := List.find?_eq_none.mp hf x hx
        simp [hxe] at this
      simp [hmem]
    | some oc =>
      have hocm : oc ∈ oldC := List.mem_of_find?_eq_some hf
      have hoce : oc.id = c.id := by simpa using List.find?_some hf
      have hmem : c.id ∈ oldC.map Chunk.id := hoce ▸ List.mem_map_of_mem Chunk.id hocm
      have hdold : digestAt pyHash oldC c.id = some (pyHash oc.text) := by
        rw [digestAt, hf]
        rfl
      simp [hmem, hdnew, hdold]
  rw [List.countP_congr hstep]
  have hmapc : newC.countP (fun c => decide (c.id ∈ oldC.map Chunk.id ∧
        digestAt pyHash newC c.id ≠ digestAt pyHash oldC c.id)) =
      (newC.map Chunk.id).countP (fun i => decide (i ∈ oldC.map Chunk.id ∧
        digestAt pyHash newC i ≠ digestAt pyHash oldC i)) := by
    rw [List.countP_map]
    rfl
  rw [hmapc, countP_eq_card_filter_toFinset _ _ hnew]
  congr 1
  ext i
  simp only [Finset.mem_filter, Finset.mem_inter, List.mem_toFinset,
    decide_eq_true_eq]
  tauto

/-- Old chunk set for the diff witness. -/
def oldListW : List Chunk := [⟨"a", "alpha", []⟩, ⟨"b", "beta", []⟩]

/-- New chunk set for the diff witness: one changed text, one new id, one
dropped id. -/
def newListW : List Chunk := [⟨"a", "alphaX", []⟩, ⟨"c", "gamma", []⟩]

/-- C6: for chunk sets with pairwise distinct ids (the data-model
uniqueness assumption), the diff computed by save_snapshot counts
added = |ids in new not in old|, removed = |ids in old not in new|,
updated = |ids in both whose per-chunk content digest differs|, and the
three underlying id sets are pairwise disjoint (no double counting). -/
theorem diff_correctness (pyHash : String → Int) (oldC newC : List Chunk)
    (hold : (oldC.map Chunk.id).Nodup) (hnew : (newC.map Chunk.id).Nodup) :
    (calcChanges pyHash oldC newC).added =
        ((newC.map Chunk.id).toFinset \ (oldC.map Chunk.id).toFinset).card
    ∧ (calcChanges pyHash oldC newC).updated =
        (((newC.map Chunk.id).toFinset ∩ (oldC.map Chunk.id).toFinset).filter
          (fun i => digestAt pyHash newC i ≠ digestAt pyHash oldC i)).card
    ∧ (calcChanges pyHash oldC newC).removed =
        ((oldC.map Chunk.id).toFinset \ (newC.map Chunk.id).toFinset).card
    ∧ Disjoint ((newC.map Chunk.id).toFinset \ (oldC.map Chunk.id).toFinset)
        (((newC.map Chunk.id).toFinset ∩ (oldC.map Chunk.id).toFinset).filter
          (fun i => digestAt pyHash newC i ≠ digestAt pyHash oldC i))
    ∧ Disjoint ((newC.map Chunk.id).toFinset \ (oldC.map Chunk.id).toFinset)
        ((oldC.map Chunk.id).toFinset \ (newC.map Chunk.id).toFinset)
    ∧ Disjoint (((newC.map Chunk.id).toFinset ∩ (oldC.map Chunk.id).toFinset).filter
          (fun i => digestAt pyHash newC i ≠ digestAt pyHash oldC i))
        ((oldC.map Chunk.id).toFinset \ (newC.map Chunk.id).toFinset) := by
  refine ⟨?_, ?_, ?_, ?_, ?_, ?_⟩
  · exact length_filter_absent newC oldC hnew hold
  · exact length_filter_updated pyHash oldC newC hold hnew
  · exact length_filter_absent oldC newC hold hnew
  · refine Finset.disjoint_left.mpr ?_
    intro i hi hj
    simp only [Finset.mem_sdiff, Finset.mem_filter, Finset.mem_inter] at hi hj
    tauto
  · refine Finset.disjoint_left.mpr ?_
    intro i hi hj
    simp only [Finset.mem_sdiff] at hi hj
    tauto
  · refine Finset.disjoint_left.mpr ?_
    intro i hi hj
    simp only [Finset.mem_sdiff, Finset.mem_filter, Finset.mem_inter] at hi hj
    tauto

/-- Witness for C6 at a concrete pair of chunk sets: one id added, one
removed, one text changed. -/
theorem diff_correctness_witness :
    (calcChanges lenHash oldListW newListW).added =
      ((newListW.map Chunk.id).toFinset \ (oldListW.map Chunk.id).toFinset).card
    ∧ calcChanges lenHash oldListW newListW = ⟨1, 1, 1⟩ := by
  have h := diff_correctness lenHash oldListW newListW (by decide) (by decide)
  exact ⟨h.1, by decide⟩

/-! ### Claim C10: deploy groups every chunk into exactly one namespace -/

/-- Membership after inserting a namespace into the seen list. -/
theorem mem_seenInsert (acc : List String) (s x : String) :
    x ∈ seenInsert acc s ↔ x ∈ acc ∨ x = s := by
  by_cases h : s ∈ acc <;> simp [seenInsert, h]
  exact fun hx => hx ▸ h

/-- Membership in the namespace fold. -/
theorem mem_foldl_seenInsert (l : List Chunk) :
    ∀ (acc : List String) (x : String),
      (x ∈ l.foldl (fun a c => seenInsert a (namespaceFor c)) acc ↔
        x ∈ acc ∨ ∃ c ∈ l, namespaceFor c = x) := by
  induction l with
  | nil => intro acc x; simp
  | cons c t ih =>
    intro acc x
    rw [List.foldl_cons, ih, mem_seenInsert]
    constructor
    · rintro ((hx | hx) | ⟨d, hd, hdx⟩)
      · exact Or.inl hx
      · exact Or.inr ⟨c, by simp, hx.symm⟩
      · exact Or.inr ⟨d, by simp [hd], hdx⟩
    · rintro (hx | ⟨d, hd, hdx⟩)
      · exact Or.inl (Or.inl hx)
      · rcases List.mem_cons.mp hd with rfl | hdt
        · exact Or.inl (Or.inr hdx.symm)
        · exact Or.inr ⟨d, hdt, hdx⟩

/-- The namespace fold keeps the seen list duplicate-free. -/
theorem nodup_foldl_seenInsert (l : List Chunk) :
    ∀ (acc : List String), acc.Nodup →
      (l.foldl (fun a c => seenInsert a (namespaceFor c)) acc).Nodup := by
  induction l with
  | nil => intro acc h; exact h
  | cons c t ih =>
    intro acc h
    rw [List.foldl_cons]
    refine ih _ ?_
    by_cases hm : namespaceFor c ∈ acc
    · simpa [seenInsert, hm] using h
    · simp [seenInsert, hm, List.nodup_append, h]

/-- Every chunk contributes its namespace to the namespace list. -/
theorem mem_namespacesOf (chunks : List Chunk) (c : Chunk) (hc : c ∈ chunks) :
    namespaceFor c ∈ namespacesOf chunks :=
  (mem_foldl_seenInsert chunks [] (namespaceFor c)).mpr (Or.inr ⟨c, hc, rfl⟩)

/-- The namespace list is duplicate-free. -/
theorem nodup_namespacesOf (chunks : List Chunk) : (namespacesOf chunks).Nodup :=
  nodup_foldl_seenInsert chunks [] List.nodup_nil

/-- Counting a chunk in a filtered list. -/
theorem count_filter_eq (l : List Chunk) (p : Chunk → Bool) (a : Chunk) :
    (l.filter p).count a = if p a then l.count a else 0 := by
  induction l with
  | nil => simp
  | cons b t ih =>
    by_cases hpb : p b
    · by_cases hab : b = a
      · subst hab
        simp [List.filter_cons, hpb, List.count_cons, ih]
      · simp [List.filter_cons, hpb, List.count_cons, ih, hab]
    · by_cases hab : b = a
      · subst hab
        simp [List.filter_cons, hpb, List.count_cons, ih]
      · simp [List.filter_cons, hpb, List.count_cons, ih, hab]

/-- Counting a chunk across the per-namespace buckets. -/
theorem count_flatMap_filter (chunks : List Chunk) (a : Chunk) :
    ∀ (nss : List String), nss.Nodup →
      (nss.flatMap (fun ns => chunks.filter (fun c => namespaceFor c == ns))).count a =
        if namespaceFor a ∈ nss then chunks.count a else 0 := by
  intro nss
  induction nss with
  | nil => intro _; simp
  | cons ns t ih =>
    intro hnd
    rw [List.nodup_cons] at hnd
    obtain ⟨hni, hndt⟩ := hnd
    rw [List.flatMap_cons, List.count_append, ih hndt, count_filter_eq]
    by_cases heq : namespaceFor a = ns
    · subst heq
      simp [hni]
    · simp [heq, List.mem_cons]

/-- Projecting the deploy log to chunks gives the concatenation of the
per-namespace buckets. -/
theorem deployLog_map_snd (chunks : List Chunk) :
    (deployLog chunks).map Prod.snd =
      (namespacesOf chunks).flatMap
        (fun ns => chunks.filter (fun c => namespaceFor c == ns)) := by
  rw [deployLog, List.map_flatMap]
  congr 1
  funext ns
  rw [List.map_map]
  exact List.map_id _

/-- The deploy log is a permutation of the chunk list: every chunk is
upserted exactly once. -/
theorem deployLog_perm (chunks : List Chunk) :
    ((deployLog chunks).map Prod.snd).Perm chunks := by
  rw [List.perm_iff_count]
  intro a
  rw [deployLog_map_snd, count_flatMap_filter chunks a _ (nodup_namespacesOf chunks)]
  by_cases hmem : namespaceFor a ∈ namespacesOf chunks
  · simp [hmem]
  · rw [if_neg hmem]
    symm
    rw [List.count_eq_zero]
    intro hac
    exact hmem (mem_namespacesOf chunks a hac)

/-- Every entry of the deploy log pairs a chunk with its routed
namespace. -/
theorem deployLog_fst (chunks : List Chunk) :
    ∀ p ∈ deployLog chunks, p.1 = namespaceFor p.2 := by
  intro p hp
  rw [deployLog, List.mem_flatMap] at hp
  obtain ⟨ns, hns, hpin⟩ := hp
  rw [List.mem_map] at hpin
  obtain ⟨c, hcf, rfl⟩ := hpin
  rw [List.mem_filter] at hcf
  have := hcf.2
  simp only [beq_iff_eq] at this
  exact this.symm

/-- C10: deploy_to_pinecone routes every chunk to exactly one namespace —
the log of upserts is a permutation of the chunk list (nothing dropped or
duplicated), each entry carries the namespace given by the type-to-
namespace table, and a chunk whose metadata has no type key, or whose type
is absent from the table, lands in the default namespace. -/
theorem deploy_namespace_partition :
    ∀ chunks : List Chunk,
      ((deployLog chunks).map Prod.snd).Perm chunks
      ∧ deploy_total chunks = chunks.length
      ∧ (∀ p ∈ deployLog chunks, p.1 = namespaceFor p.2)
      ∧ (∀ c : Chunk, c.metadata.find? (fun q => q.1 == "type") = none →
          namespaceFor c = "default")
      ∧ (∀ (c : Chunk) (v : String), pyGet c.metadata "type" "default" = v →
          TYPE_TO_NAMESPACE.find? (fun q => q.1 == v) = none →
          namespaceFor c = "default") := by
  intro chunks
  refine ⟨deployLog_perm chunks, ?_, deployLog_fst chunks, ?_, ?_⟩
  · have h := (deployLog_perm chunks).length_eq
    rw [List.length_map] at h
    rw [deploy_total, h]
  · intro c h
    unfold namespaceFor pyGet
    rw [h]
    rfl
  · intro c v h1 h2
    unfold namespaceFor
    rw [h1]
    simp only [h2]

/-- Witness for C10 at a concrete three-chunk list covering a mapped type,
a missing type key, and an unmapped type. -/
theorem deploy_namespace_partition_witness :
    ((deployLog [sampleChunkA, sampleChunkB, sampleChunkC]).map Prod.snd).Perm
        [sampleChunkA, sampleChunkB, sampleChunkC]
    ∧ deploy_total [sampleChunkA, sampleChunkB, sampleChunkC] = 3
    ∧ namespaceFor sampleChunkB = "default"
    ∧ namespaceFor sampleChunkC = "default" := by
  have h := deploy_namespace_partition [sampleChunkA, sampleChunkB, sampleChunkC]
  refine ⟨h.1, ?_, ?_, ?_⟩
  · rw [h.2.1]
    rfl
  · exact h.2.2.2.1 sampleChunkB (by decide)
  · exact h.2.2.2.2 sampleChunkC "weird" (by decide) (by decide)
